import Mathlib

/-!
Verification development for the solsec heuristic detection and
finding-consolidation pipeline.

The Go sources are shallowly embedded: each Go function that the claims
mention is translated into an executable Lean definition of the same name.
Files are represented as lists of lines (the Go code reads files through
bufio.Scanner, which yields exactly the lines); the filesystem is an
explicit record of stat/read/enumerate functions.  Go byte-level string
operations are modelled at the character level; for the ASCII patterns
the detectors use, byte positions and character positions coincide
(every pattern byte is ASCII, and ASCII bytes never occur inside a
multi-byte UTF-8 sequence).  Go machine integers are modelled as Int.
-/

/-- Character test mirroring unicode.IsSpace, used by strings.TrimSpace
and strings.Fields. -/
def goIsSpace (c : Char) : Bool :=
  c = ' ' || c = '\t' || c = '\n' || c = '\x0b' || c = '\x0c' || c = '\r' ||
  c = '\x85' || c = '\xa0' || c.val = 0x1680 ||
  (0x2000 ≤ c.val && c.val ≤ 0x200a) ||
  c.val = 0x2028 || c.val = 0x2029 || c.val = 0x202f || c.val = 0x205f ||
  c.val = 0x3000

/-- strings.TrimSpace. -/
def trimGo (s : String) : String :=
  ⟨((s.data.dropWhile goIsSpace).reverse.dropWhile goIsSpace).reverse⟩

/-- Substring test on character lists (strings.Contains). -/
def listHasSub (pat : List Char) : List Char → Bool
  | [] => pat.isEmpty
  | c :: t => pat.isPrefixOf (c :: t) || listHasSub pat t

/-- strings.Contains. -/
def hasSub (s pat : String) : Bool := listHasSub pat.data s.data

/-- strings.HasPrefix; on valid UTF-8 a byte-level prefix is exactly a
character-level prefix. -/
def goHasPrefix (s pre : String) : Bool := pre.data.isPrefixOf s.data

/-- First index at which pat occurs (strings.Index), as a character index. -/
def idxSubAux (pat : List Char) : List Char → Nat → Option Nat
  | [], i => if pat.isEmpty then some i else none
  | c :: t, i => if pat.isPrefixOf (c :: t) then some i else idxSubAux pat t (i + 1)

/-- strings.Index returning none instead of -1. -/
def idxSub (s pat : String) : Option Nat := idxSubAux pat.data s.data 0

/-- First index of any character from the set (strings.IndexAny). -/
def idxAnyAux (set : List Char) : List Char → Nat → Option Nat
  | [], _ => none
  | c :: t, i => if c ∈ set then some i else idxAnyAux set t (i + 1)

/-- strings.ToLower; Go lowercases all Unicode letters, the detectors only
rely on ASCII where Char.toLower agrees. -/
def toLowerGo (s : String) : String := ⟨s.data.map Char.toLower⟩

/-! ## Data model (internal/parser/models.go) -/

/-- parser.Finding, the normalized finding shape shared by the external
analyzer and the custom checks.  Severity is a Go string type. -/
structure Finding where
  id : String
  source : String
  check : String
  title : String
  description : String
  severity : String
  confidence : String
  file : String
  lines : List Int
  remediation : String
  swcRef : String
  references : List String
deriving DecidableEq, Repr

/-- Default finding, mirroring the Go zero value of parser.Finding. -/
def emptyFinding : Finding :=
  { id := "", source := "", check := "", title := "", description := ""
    severity := "", confidence := "", file := "", lines := []
    remediation := "", swcRef := "", references := [] }

/-- parser.Summary. -/
structure Summary where
  total : Int
  critical : Int
  high : Int
  medium : Int
  low : Int
  informational : Int
  optimization : Int
deriving DecidableEq, Repr

/-- parser.AnalysisReport; GeneratedAt is a wall-clock timestamp outside
the scope of the embedding and is fixed to the empty string. -/
structure AnalysisReport where
  target : String
  generatedAt : String
  summary : Summary
  findings : List Finding
deriving DecidableEq, Repr

/-- parser.SeverityRank: numeric rank for sorting, lower is more severe,
unrecognized values rank last. -/
def SeverityRank (s : String) : Int :=
  if s = "Critical" then 0
  else if s = "High" then 1
  else if s = "Medium" then 2
  else if s = "Low" then 3
  else if s = "Informational" then 4
  else if s = "Optimization" then 5
  else 6

/-! ## Reentrancy detector (internal/analyzer/checks/reentrancy.go) -/

/-- Line is treated as a function declaration: the loop in
checkReentrancyInFile requires the trimmed line to contain both
"function " and an opening parenthesis. -/
def isFuncDeclLine (t : String) : Bool := hasSub t "function " && hasSub t "("

/-- Reentrancy-guard signal; note that unlike the call and mutation
signals this test has no comment filter in the source. -/
def hasGuardToken (t : String) : Bool :=
  hasSub t "nonReentrant" || hasSub t "ReentrancyGuard" || hasSub t "mutex"

/-- External-call signal on a trimmed line; each Go pattern test also
requires the line not to start with //. -/
def isCallSignal (t : String) : Bool :=
  (hasSub t ".call\x7b" || hasSub t ".call(" || hasSub t ".delegatecall(" ||
   hasSub t ".transfer(" || hasSub t ".send(") && !(goHasPrefix t "//")

/-- State-mutation signal on a trimmed line, with the same comment filter;
the Go loop breaks after the first matching pattern, so a line emits at
most one finding. -/
def isMutSignal (t : String) : Bool :=
  (hasSub t "balances[" || hasSub t "balanceOf[" || hasSub t "= 0;" ||
   hasSub t "-= " || hasSub t "+= ") && !(goHasPrefix t "//")

/-- checks.extractFunctionName: text after "function " up to the first
parenthesis or space. -/
def extractFunctionName (line : String) : String :=
  let start := match idxSub line "function " with
    | some i => i + 9
    | none => 8
  let rest := line.data.drop start
  match idxAnyAux ['(', ' '] rest 0 with
  | some e => ⟨rest.take e⟩
  | none => ⟨rest⟩

/-- The finding literal built inside checkReentrancyInFile. -/
def mkReentrancyFinding (path fname : String) (prevCount callLine lineNum : Nat) : Finding :=
  { id := "CUSTOM-REENTRANT-" ++ toString (prevCount + 1)
    source := "custom"
    check := "custom-reentrancy-ordering"
    title := "State Change After External Call (Reentrancy Risk)"
    description := "In function \x27" ++ fname ++ "\x27 (" ++ path ++ " line " ++
      toString lineNum ++ "): state variable modified after external call on line " ++
      toString callLine ++
      ". If the callee re-enters this function before the state update, it can exploit the stale state."
    severity := "High"
    confidence := "Medium"
    file := path
    lines := [(callLine : Int), (lineNum : Int)]
    remediation := "Move all state changes BEFORE the external call (checks-effects-interactions). Alternatively, add OpenZeppelin\x27s nonReentrant modifier."
    swcRef := "SWC-107"
    references := ["https://swcregistry.io/docs/SWC-107",
                   "https://docs.openzeppelin.com/contracts/4.x/api/security#ReentrancyGuard"] }

/-- Per-file scan state of checkReentrancyInFile. -/
structure RState where
  inFunction : Bool
  functionName : String
  sawExternalCall : Bool
  callLine : Nat
  hasGuard : Bool
  lineNum : Nat
  findings : List Finding

/-- Initial scan state (Go zero values). -/
def initR : RState :=
  { inFunction := false, functionName := "", sawExternalCall := false,
    callLine := 0, hasGuard := false, lineNum := 0, findings := [] }

/-- One iteration of the scanner loop in checkReentrancyInFile: function
boundary tracking, the continue when outside a function, guard then call
then mutation detection, and the reset on a bare closing brace. -/
def stepR (path : String) (s : RState) (raw : String) : RState :=
  let n := s.lineNum + 1
  let t := trimGo raw
  let s1 : RState :=
    if isFuncDeclLine t then
      { s with inFunction := true, sawExternalCall := false, hasGuard := false,
               functionName := extractFunctionName t, lineNum := n }
    else { s with lineNum := n }
  if s1.inFunction = false then s1
  else
    let hasG := s1.hasGuard || hasGuardToken t
    let sawC := s1.sawExternalCall || isCallSignal t
    let callL := if isCallSignal t then n else s1.callLine
    let fs := if sawC && !hasG && isMutSignal t
      then s1.findings ++ [mkReentrancyFinding path s1.functionName s1.findings.length callL n]
      else s1.findings
    if t = "\x7d" then
      { s1 with hasGuard := hasG, sawExternalCall := false, callLine := callL,
                inFunction := false, findings := fs }
    else
      { s1 with hasGuard := hasG, sawExternalCall := sawC, callLine := callL,
                findings := fs }

/-- Fold of stepR over the lines of a file. -/
def scanR (path : String) (s : RState) : List String → RState
  | [] => s
  | l :: ls => scanR path (stepR path s l) ls

/-- checks.checkReentrancyInFile, with the file contents supplied as the
list of its lines. -/
def checkReentrancyInFile (path : String) (lines : List String) : List Finding :=
  (scanR path initR lines).findings

/-! ## Access-control detector (internal/analyzer/checks/access_control.go) -/

/-- Entry of the sensitivePatterns catalog. -/
structure SensitivePattern where
  keyword : String
  severity : String
  note : String

/-- checks.sensitivePatterns, in source order. -/
def sensitivePatterns : List SensitivePattern :=
  [ { keyword := "mint", severity := "Critical",
      note := "Unrestricted minting allows anyone to inflate token supply to infinity." },
    { keyword := "burn", severity := "High",
      note := "Unrestricted burning allows anyone to destroy any holder\x27s tokens." },
    { keyword := "pause", severity := "High",
      note := "Unrestricted pause allows any caller to halt all transfers (griefing attack)." },
    { keyword := "unpause", severity := "High",
      note := "Unrestricted unpause can bypass emergency stops." },
    { keyword := "upgradeTo", severity := "Critical",
      note := "Unrestricted upgrades allow full contract takeover." },
    { keyword := "upgradeToAndCall", severity := "Critical",
      note := "Unrestricted upgrades allow full contract takeover." },
    { keyword := "setOwner", severity := "Critical",
      note := "Unrestricted owner changes allow full protocol takeover." },
    { keyword := "transferOwnership", severity := "High",
      note := "Should be guarded — accidental calls transfer admin rights." },
    { keyword := "withdraw", severity := "High",
      note := "Unrestricted withdrawals allow draining of contract funds." },
    { keyword := "selfdestruct", severity := "Critical",
      note := "Unrestricted selfdestruct permanently destroys the contract." } ]

/-- checks.accessModifiers. -/
def accessModifiers : List String :=
  ["onlyOwner", "onlyRole", "onlyAdmin", "onlyMinter", "onlyPauser",
   "requiresAuth", "restricted", "auth", "isOwner"]

/-- checks.containsFunctionNamed.  The source lowercases the whole line
first and then searches for "function " followed by the keyword with its
original casing, and tests whether the character after the keyword is an
opening parenthesis or an uppercase ASCII letter — on the lowercased
text. -/
def containsFunctionNamed (line keyword : String) : Bool :=
  let lower := toLowerGo line
  match idxSub lower ("function " ++ keyword) with
  | none => false
  | some idx =>
    let after := lower.data.drop (idx + 9 + keyword.length)
    match after with
    | [] => false
    | c :: _ => c = '(' || ('A' ≤ c && c ≤ 'Z')

/-- checks.hasAccessModifier. -/
def hasAccessModifier (line : String) : Bool :=
  let lower := toLowerGo line
  accessModifiers.any (fun m => hasSub lower (toLowerGo m))

/-- The finding literal built inside checkAccessControlInFile. -/
def mkAccessFinding (path trimmed : String) (sp : SensitivePattern)
    (prevCount lineNum : Nat) : Finding :=
  { id := "CUSTOM-ACCESS-" ++ toString (prevCount + 1)
    source := "custom"
    check := "custom-missing-access-control"
    title := "Missing Access Control on " ++ extractFunctionName trimmed ++ "()"
    description := path ++ ":" ++ toString lineNum ++ " — Function \x27" ++
      extractFunctionName trimmed ++
      "\x27 appears to be missing an access control modifier. " ++ sp.note
    severity := sp.severity
    confidence := "Medium"
    file := path
    lines := [(lineNum : Int)]
    remediation := "Add an access control modifier to \x27" ++ extractFunctionName trimmed ++
      "()\x27. Use onlyOwner (OpenZeppelin Ownable) or onlyRole(ROLE) (OpenZeppelin AccessControl) depending on your access model."
    swcRef := "SWC-105"
    references := ["https://swcregistry.io/docs/SWC-105",
                   "https://docs.openzeppelin.com/contracts/4.x/access-control"] }

/-- One line of checkAccessControlInFile: skip comment lines, require a
function declaration, then evaluate every sensitive pattern in order. -/
def stepA (path : String) (acc : List Finding) (lineNum : Nat) (raw : String) : List Finding :=
  let t := trimGo raw
  if goHasPrefix t "//" || goHasPrefix t "*" then acc
  else if !(hasSub t "function ") then acc
  else
    sensitivePatterns.foldl (fun acc2 sp =>
      if containsFunctionNamed t sp.keyword && !(hasAccessModifier t) &&
         !(hasSub t " internal ") && !(hasSub t " private ") then
        acc2 ++ [mkAccessFinding path t sp acc2.length lineNum]
      else acc2) acc

/-- Fold of stepA over the lines of a file. -/
def scanA (path : String) (acc : List Finding) (lineNum : Nat) : List String → List Finding
  | [] => acc
  | l :: ls => scanA path (stepA path acc (lineNum + 1) l) (lineNum + 1) ls

/-- checks.checkAccessControlInFile over the lines of the file. -/
def checkAccessControlInFile (path : String) (lines : List String) : List Finding :=
  scanA path [] 0 lines

/-! ## Integer-overflow detector (internal/analyzer/checks/integer_overflow.go) -/

/-- checks.containsArithmetic. -/
def containsArithmetic (line : String) : Bool :=
  hasSub line " + " || hasSub line " - " || hasSub line " * " ||
  hasSub line " / " || hasSub line " % " || hasSub line "++" ||
  hasSub line "--" || hasSub line "+=" || hasSub line "-=" ||
  hasSub line "*=" || hasSub line "/="

/-- Accumulator loop for strings.Fields over the character list. -/
def fieldsAux : List Char → List Char → List String
  | [], acc => if acc.isEmpty then [] else [⟨acc.reverse⟩]
  | c :: t, acc =>
    if goIsSpace c then
      if acc.isEmpty then fieldsAux t [] else ⟨acc.reverse⟩ :: fieldsAux t []
    else fieldsAux t (c :: acc)

/-- strings.Fields: split around runs of whitespace, no empty fields. -/
def goFields (s : String) : List String := fieldsAux s.data []

/-- Accumulator loop for strings.Split with a one-character separator. -/
def splitOnCharAux (sep : Char) : List Char → List Char → List String
  | [], acc => [⟨acc.reverse⟩]
  | c :: t, acc =>
    if c = sep then ⟨acc.reverse⟩ :: splitOnCharAux sep t []
    else splitOnCharAux sep t (c :: acc)

/-- strings.Split with a one-character separator. -/
def splitOnChar (sep : Char) (s : String) : List String := splitOnCharAux sep s.data []

/-- strings.TrimLeft with a cutset. -/
def goTrimLeftCutset (s cutset : String) : String :=
  ⟨s.data.dropWhile (· ∈ cutset.data)⟩

/-- strings.Trim with a cutset. -/
def goTrimCutset (s cutset : String) : String :=
  ⟨((s.data.dropWhile (· ∈ cutset.data)).reverse.dropWhile (· ∈ cutset.data)).reverse⟩

/-- Decimal digit run to Nat. -/
def digitsToNat (ds : List Char) : Nat :=
  ds.foldl (fun n c => n * 10 + (c.toNat - 48)) 0

/-- Leading decimal run of a character list, if nonempty. -/
def parseDigitRun (cs : List Char) : Option Nat :=
  let ds := cs.takeWhile Char.isDigit
  if ds.isEmpty then none else some (digitsToNat ds)

/-- fmt.Sscanf with a %d verb: skip leading spaces, optional sign, at
least one digit; trailing text is ignored; on failure the destination is
left unchanged (hence the Option). -/
def goParseInt (s : String) : Option Int :=
  match s.data.dropWhile goIsSpace with
  | '-' :: rest => (parseDigitRun rest).map (fun n => -(n : Int))
  | '+' :: rest => (parseDigitRun rest).map (fun n => (n : Int))
  | cs => (parseDigitRun cs).map (fun n => (n : Int))

/-- Loop body of checks.extractSolidityVersion over the whitespace-split
fields of the pragma line; ma and mi are the named result variables,
which keep their previous values when Sscanf fails. -/
def extractVersionLoop : List String → Int → Int → Int × Int
  | [], _, _ => (0, 8)
  | p :: rest, ma, mi =>
    let cleaned := goTrimCutset (goTrimLeftCutset p "^>=<~") ";"
    let parts := splitOnChar '.' cleaned
    if parts.length ≥ 2 then
      let ma2 := (goParseInt (parts.getD 0 "")).getD ma
      let mi2 := (goParseInt (parts.getD 1 "")).getD mi
      if ma2 == 0 && mi2 > 0 then (ma2, mi2)
      else extractVersionLoop rest ma2 mi2
    else extractVersionLoop rest ma mi

/-- checks.extractSolidityVersion; falls back to (0, 8) when no field
yields major 0 with positive minor. -/
def extractSolidityVersion (pragmaLine : String) : Int × Int :=
  extractVersionLoop (goFields pragmaLine) 0 0

/-- The High-severity finding literal of checkIntegerOverflowInFile. -/
def mkOverflowFinding (path : String) (prevCount lineNum : Nat) (ma mi : Int) : Finding :=
  { id := "CUSTOM-OVERFLOW-" ++ toString (prevCount + 1)
    source := "custom"
    check := "custom-integer-overflow"
    title := "Potential Integer Overflow (Solidity < 0.8)"
    description := path ++ ":" ++ toString lineNum ++
      " — Arithmetic operation in Solidity " ++ toString ma ++ "." ++ toString mi ++
      ".x without SafeMath. Integer overflow/underflow silently wraps in versions before 0.8.0."
    severity := "High"
    confidence := "Medium"
    file := path
    lines := [(lineNum : Int)]
    remediation := "Upgrade to Solidity ^0.8.0 where overflow/underflow revert by default. If upgrading is not possible, use OpenZeppelin SafeMath for all arithmetic."
    swcRef := "SWC-101"
    references := ["https://swcregistry.io/docs/SWC-101",
                   "https://docs.openzeppelin.com/contracts/4.x/api/utils#SafeMath"] }

/-- The Low-severity finding literal of checkIntegerOverflowInFile. -/
def mkUncheckedFinding (path : String) (prevCount uncheckedLine lineNum : Nat) : Finding :=
  { id := "CUSTOM-UNCHECKED-" ++ toString (prevCount + 1)
    source := "custom"
    check := "custom-unchecked-arithmetic"
    title := "Arithmetic Inside unchecked\x7b\x7d Block"
    description := path ++ ":" ++ toString lineNum ++
      " — Arithmetic operation inside an unchecked\x7b\x7d block (started line " ++
      toString uncheckedLine ++ "). Overflow protection is deliberately disabled here. Verify this is intentional."
    severity := "Low"
    confidence := "High"
    file := path
    lines := [(uncheckedLine : Int), (lineNum : Int)]
    remediation := "Only use unchecked\x7b\x7d when overflow is mathematically impossible (e.g. loop counter bounded by array length). Add a comment explaining why it is safe."
    swcRef := "SWC-101"
    references := ["https://docs.soliditylang.org/en/latest/control-structures.html#checked-or-unchecked-arithmetic"] }

/-- Per-file scan state of checkIntegerOverflowInFile. -/
structure IState where
  lineNum : Nat
  solidityMajor : Int
  solidityMinor : Int
  inUnchecked : Bool
  uncheckedLine : Nat
  findings : List Finding

/-- Initial scan state (Go zero values); note that with no pragma line
the version stays 0.0, below the 0.8 threshold. -/
def initI : IState :=
  { lineNum := 0, solidityMajor := 0, solidityMinor := 0,
    inUnchecked := false, uncheckedLine := 0, findings := [] }

/-- One iteration of the scanner loop in checkIntegerOverflowInFile:
pragma tracking, unchecked-block entry and exit, the below-0.8 High rule
and the at-or-above-0.8 unchecked Low rule. -/
def stepI (path : String) (s : IState) (raw : String) : IState :=
  let n := s.lineNum + 1
  let t := trimGo raw
  let v := if goHasPrefix t "pragma solidity" then extractSolidityVersion t
           else (s.solidityMajor, s.solidityMinor)
  let opened := t = "unchecked \x7b" || t = "unchecked\x7b"
  let inU := if opened then true else s.inUnchecked
  let uLine := if opened then n else s.uncheckedLine
  let inU2 := if inU && t = "\x7d" then false else inU
  let fs1 :=
    if v.1 == 0 && v.2 < 8 && containsArithmetic t && !(hasSub t "SafeMath") && !(goHasPrefix t "//")
    then s.findings ++ [mkOverflowFinding path s.findings.length n v.1 v.2]
    else s.findings
  let fs2 :=
    if v.1 == 0 && v.2 ≥ 8 && inU2 && containsArithmetic t && !(goHasPrefix t "//")
    then fs1 ++ [mkUncheckedFinding path fs1.length uLine n]
    else fs1
  { lineNum := n, solidityMajor := v.1, solidityMinor := v.2,
    inUnchecked := inU2, uncheckedLine := uLine, findings := fs2 }

/-- Fold of stepI over the lines of a file. -/
def scanI (path : String) (s : IState) : List String → IState
  | [] => s
  | l :: ls => scanI path (stepI path s l) ls

/-- checks.checkIntegerOverflowInFile over the lines of the file. -/
def checkIntegerOverflowInFile (path : String) (lines : List String) : List Finding :=
  (scanI path initI lines).findings

/-! ## Consolidator (internal/analyzer/analyzer.go) -/

/-- The dedup key string built in analyzer.deduplicate: SWC ref and file
joined with a pipe, plus the first line number when lines is nonempty. -/
def dedupKey (f : Finding) : String :=
  let base := f.swcRef ++ "|" ++ f.file
  match f.lines with
  | [] => base
  | n :: _ => base ++ "|" ++ toString n

/-- Loop of analyzer.deduplicate with the seen-key set made explicit. -/
def dedupAux : List Finding → List String → List Finding
  | [], _ => []
  | f :: rest, seen =>
    if dedupKey f ∈ seen then dedupAux rest seen
    else f :: dedupAux rest (dedupKey f :: seen)

/-- analyzer.deduplicate: first finding per key string survives, in input
order. -/
def deduplicate (findings : List Finding) : List Finding := dedupAux findings []

/-- The switch statement inside analyzer.buildSummary: bump the bucket of
a recognized severity, leave the summary unchanged otherwise. -/
def summStep (s : Summary) (f : Finding) : Summary :=
  if f.severity = "Critical" then { s with critical := s.critical + 1 }
  else if f.severity = "High" then { s with high := s.high + 1 }
  else if f.severity = "Medium" then { s with medium := s.medium + 1 }
  else if f.severity = "Low" then { s with low := s.low + 1 }
  else if f.severity = "Informational" then { s with informational := s.informational + 1 }
  else if f.severity = "Optimization" then { s with optimization := s.optimization + 1 }
  else s

/-- analyzer.buildSummary: Total is the sequence length, the six buckets
are incremented only for recognized severities. -/
def buildSummary (findings : List Finding) : Summary :=
  findings.foldl summStep
    { total := (findings.length : Int), critical := 0, high := 0, medium := 0,
      low := 0, informational := 0, optimization := 0 }

/-- A severity string is one of the six enumerated values. -/
def recognizedSeverity (sev : String) : Bool :=
  sev = "Critical" || sev = "High" || sev = "Medium" || sev = "Low" ||
  sev = "Informational" || sev = "Optimization"

/-- The comparison closure passed to sort.Slice in analyzer.Analyze. -/
def findingLess (a b : Finding) : Bool :=
  if SeverityRank a.severity ≠ SeverityRank b.severity
  then SeverityRank a.severity < SeverityRank b.severity
  else a.file < b.file

/-! ## Scorer (internal/scorer/scorer.go) -/

/-- Wrap-around of signed 64-bit machine arithmetic: the representative
in [-2^63, 2^63) that a Go int holds after an overflowing operation.  Go
int is 64 bits wide on every release target of this repository
(amd64/arm64). -/
def wrap64 (n : Int) : Int :=
  (n + 9223372036854775808) % 18446744073709551616 - 9223372036854775808

/-- Go int multiplication (wraps on overflow). -/
def mulInt64 (a b : Int) : Int := wrap64 (a * b)

/-- Go int addition (wraps on overflow). -/
def addInt64 (a b : Int) : Int := wrap64 (a + b)

/-- scorer.Score: fixed linear weighted sum clamped at 100, with every
arithmetic statement computed in Go int (64-bit wrap-around)
arithmetic, mirroring the four += statements of the source. -/
def Score (report : AnalysisReport) : Int :=
  let score := addInt64 (addInt64 (addInt64 (addInt64 0
    (mulInt64 report.summary.critical 40)) (mulInt64 report.summary.high 20))
    (mulInt64 report.summary.medium 10)) (mulInt64 report.summary.low 3)
  if score > 100 then 100 else score

/-! ## Filesystem model and pipeline (checks/helpers.go, runner.go, cmd) -/

/-- Outcome of os.Stat on a path, abstracted: the path is missing, stat
itself fails (for example EACCES on a parent directory), or the path is a
regular file or a directory. -/
inductive StatResult where
  | notExist
  | statError
  | file
  | dir
deriving DecidableEq, Repr

/-- Abstract read-only filesystem: stat, reading a file as its list of
lines (os.Open plus bufio.Scanner; an error models an unreadable file,
such as one with mode 000, whose stat nevertheless succeeds), and the
recursive .sol enumeration that filepath.Walk performs on a directory. -/
structure FileSystem where
  stat : String → StatResult
  read : String → Except String (List String)
  listSolRec : String → Except String (List String)

/-- checks.solidityFiles: stat errors propagate; a non-directory is
returned as the single target; a directory is walked recursively. -/
def solidityFiles (fs : FileSystem) (target : String) : Except String (List String) :=
  match fs.stat target with
  | .notExist => Except.error ("stat " ++ target ++ ": no such file or directory")
  | .statError => Except.error ("stat " ++ target ++ ": permission denied")
  | .file => Except.ok [target]
  | .dir => fs.listSolRec target

/-- Shared loop of the three Check functions: scan each file in order,
propagating the first read error. -/
def runCheckOnFiles (checkFile : String → List String → List Finding)
    (fs : FileSystem) : List String → Except String (List Finding)
  | [] => Except.ok []
  | p :: rest =>
    match fs.read p with
    | Except.error e => Except.error ("opening " ++ p ++ ": " ++ e)
    | Except.ok ls =>
      match runCheckOnFiles checkFile fs rest with
      | Except.error e => Except.error e
      | Except.ok more => Except.ok (checkFile p ls ++ more)

/-- checks.CheckReentrancy. -/
def CheckReentrancy (fs : FileSystem) (target : String) : Except String (List Finding) :=
  match solidityFiles fs target with
  | Except.error e => Except.error e
  | Except.ok files => runCheckOnFiles checkReentrancyInFile fs files

/-- checks.CheckAccessControl. -/
def CheckAccessControl (fs : FileSystem) (target : String) : Except String (List Finding) :=
  match solidityFiles fs target with
  | Except.error e => Except.error e
  | Except.ok files => runCheckOnFiles checkAccessControlInFile fs files

/-- checks.CheckIntegerOverflow. -/
def CheckIntegerOverflow (fs : FileSystem) (target : String) : Except String (List Finding) :=
  match solidityFiles fs target with
  | Except.error e => Except.error e
  | Except.ok files => runCheckOnFiles checkIntegerOverflowInFile fs files

/-- analyzer.Analyze: external findings first, then each custom check in
its configured order with errors swallowed (logged and skipped), then
dedup, sort and summary.  The Go function sorts with sort.Slice, whose
algorithm lives in the Go runtime and is not guaranteed stable, so the
sorting pass is a parameter; the Go function always returns a nil
error.  GeneratedAt is a wall-clock timestamp, fixed here to "". -/
def Analyze (sortImpl : List Finding → List Finding) (fs : FileSystem)
    (target : String) (slitherFindings : List Finding) : AnalysisReport :=
  let all1 := slitherFindings ++
    (match CheckReentrancy fs target with | Except.ok f => f | Except.error _ => [])
  let all2 := all1 ++
    (match CheckAccessControl fs target with | Except.ok f => f | Except.error _ => [])
  let all3 := all2 ++
    (match CheckIntegerOverflow fs target with | Except.ok f => f | Except.error _ => [])
  let sorted := sortImpl (deduplicate all3)
  { target := target, generatedAt := "", summary := buildSummary sorted, findings := sorted }

/-- path/filepath.Ext: the suffix starting at the final dot of the final
path element, empty when there is none. -/
def goFilepathExt (path : String) : String :=
  let rev := path.data.reverse.takeWhile (· ≠ '/')
  if rev.contains '.' then ⟨('.' :: (rev.takeWhile (· ≠ '.')).reverse : List Char)⟩ else ""

/-- runner.ValidateTarget: missing target and stat failures are errors,
directories are accepted, plain files must carry the .sol extension. -/
def ValidateTarget (fs : FileSystem) (target : String) : Except String Unit :=
  match fs.stat target with
  | .notExist => Except.error ("target not found: " ++ target)
  | .statError => Except.error ("accessing target: permission denied")
  | .dir => Except.ok ()
  | .file =>
    if goFilepathExt target ≠ ".sol"
    then Except.error ("target must be a .sol file or a directory, got: " ++ target)
    else Except.ok ()

/-- The analyze command pipeline (cmd runAnalyze) restricted to the core:
validate the target, then consolidate.  Environment detection, the
external analyzer subprocess and report rendering are out-of-scope
collaborators; externalFindings stands for the pre-parsed output of the
external analyzer (empty when it is skipped). -/
def runAnalyzePipeline (sortImpl : List Finding → List Finding) (fs : FileSystem)
    (target : String) (externalFindings : List Finding) : Except String AnalysisReport :=
  match ValidateTarget fs target with
  | Except.error e => Except.error e
  | Except.ok _ => Except.ok (Analyze sortImpl fs target externalFindings)

/-! ## Definitions following the spec wording, for comparison -/

/-- The deduplication key as the SPEC words it: the tuple of
cross-reference id, file, and first line of lines if present.  Written
from the spec, to be compared with dedupKey, which joins the components
into one string. -/
def tupleKey (f : Finding) : String × String × Option Int :=
  (f.swcRef, f.file, f.lines.head?)

/-- First-occurrence deduplication over the spec tuple key. -/
def dedupByTupleAux : List Finding → List (String × String × Option Int) → List Finding
  | [], _ => []
  | f :: rest, seen =>
    if tupleKey f ∈ seen then dedupByTupleAux rest seen
    else f :: dedupByTupleAux rest (tupleKey f :: seen)

/-- Deduplication exactly as the spec describes it: keep the first
finding observed for each (cross-reference id, file, first line) tuple. -/
def deduplicateByTupleKey (findings : List Finding) : List Finding :=
  dedupByTupleAux findings []

/-- Filter-style keep-first recursion over the key string used to state
the amended dedup characterization with genuine content. -/
def keepFirstByKey : List Finding → List Finding
  | [] => []
  | f :: rest =>
    f :: keepFirstByKey (rest.filter (fun g => dedupKey g != dedupKey f))
termination_by l => l.length
decreasing_by
  simp only [List.length_cons]
  exact Nat.lt_succ_of_le (List.length_filter_le _ _)

/-! ## Lemmas and claim theorems

The remainder of the file proves the claims.  Helper lemmas characterize
single steps and whole segments of the detector scans; the claim theorems
follow, each with its witness or counterexample. -/

theorem stepR_lineNum (path : String) (s : RState) (raw : String) :
    (stepR path s raw).lineNum = s.lineNum + 1 := by
  simp only [stepR]
  split_ifs <;> rfl

theorem stepR_inF (path : String) (s : RState) (raw : String)
    (h2 : trimGo raw ≠ "\x7d") (hin : s.inFunction = true) :
    (stepR path s raw).inFunction = true := by
  simp only [stepR]
  split_ifs <;> simp_all

theorem stepR_state_nofun (path : String) (s : RState) (raw : String)
    (h1 : isFuncDeclLine (trimGo raw) = false) (h2 : trimGo raw ≠ "\x7d")
    (hin : s.inFunction = true) :
    (stepR path s raw).inFunction = true ∧
    (stepR path s raw).hasGuard = (s.hasGuard || hasGuardToken (trimGo raw)) ∧
    (stepR path s raw).sawExternalCall = (s.sawExternalCall || isCallSignal (trimGo raw)) ∧
    (stepR path s raw).callLine = (if isCallSignal (trimGo raw) then s.lineNum + 1 else s.callLine) := by
  simp only [stepR, h1, if_false]
  split_ifs <;> simp_all

theorem stepR_decl (path : String) (s : RState) (raw : String)
    (h1 : isFuncDeclLine (trimGo raw) = true)
    (hg : hasGuardToken (trimGo raw) = false) :
    (stepR path s raw).inFunction = (if trimGo raw = "\x7d" then false else true) ∧
    (stepR path s raw).hasGuard = false := by
  simp only [stepR, h1, if_true]
  split_ifs <;> simp_all

theorem stepR_guard (path : String) (s : RState) (raw : String)
    (hg : hasGuardToken (trimGo raw) = true) (hin : s.inFunction = true) :
    (stepR path s raw).hasGuard = true ∧ (stepR path s raw).findings = s.findings := by
  simp only [stepR]
  split_ifs <;> simp_all

theorem stepR_noemit_hasGuard (path : String) (s : RState) (raw : String)
    (h1 : isFuncDeclLine (trimGo raw) = false) (hg : s.hasGuard = true) :
    (stepR path s raw).hasGuard = true ∧ (stepR path s raw).findings = s.findings := by
  simp only [stepR, h1, if_false]
  split_ifs <;> simp_all

theorem stepR_emit (path : String) (s : RState) (raw : String)
    (h1 : isFuncDeclLine (trimGo raw) = false)
    (hin : s.inFunction = true) (hg : s.hasGuard = false)
    (hgt : hasGuardToken (trimGo raw) = false)
    (hsc : s.sawExternalCall = true) (hnc : isCallSignal (trimGo raw) = false)
    (hm : isMutSignal (trimGo raw) = true) :
    (stepR path s raw).findings =
      s.findings ++ [mkReentrancyFinding path s.functionName s.findings.length s.callLine (s.lineNum + 1)] := by
  simp only [stepR, h1, if_false]
  split_ifs <;> simp_all

theorem stepR_findings_cases (path : String) (s : RState) (raw : String) :
    (stepR path s raw).findings = s.findings ∨
    ∃ e, (stepR path s raw).findings = s.findings ++ [e] ∧
         e.lines.getD 1 0 = ((s.lineNum + 1 : Nat) : Int) := by
  simp only [stepR]
  split_ifs <;>
    first
      | exact Or.inl rfl
      | exact Or.inr ⟨_, rfl, by simp [mkReentrancyFinding]⟩

theorem scanR_append (path : String) (xs ys : List String) (s : RState) :
    scanR path s (xs ++ ys) = scanR path (scanR path s xs) ys := by
  induction xs generalizing s with
  | nil => rfl
  | cons x xs ih => simp only [List.cons_append, scanR]; exact ih _

theorem scanR_lineNum (path : String) (ls : List String) (s : RState) :
    (scanR path s ls).lineNum = s.lineNum + ls.length := by
  induction ls generalizing s with
  | nil => simp [scanR]
  | cons l ls ih =>
    simp only [scanR, ih, stepR_lineNum, List.length_cons]
    omega

theorem scanR_findings_ext (path : String) (ls : List String) (s : RState) :
    ∃ new, (scanR path s ls).findings = s.findings ++ new ∧
      ∀ fd ∈ new, ((s.lineNum : Nat) : Int) < fd.lines.getD 1 0 ∧
        fd.lines.getD 1 0 ≤ ((s.lineNum + ls.length : Nat) : Int) := by
  induction ls generalizing s with
  | nil => exact ⟨[], by simp [scanR], by simp⟩
  | cons l ls ih =>
    simp only [scanR]
    obtain ⟨new2, hnew2, hb2⟩ := ih (stepR path s l)
    rcases stepR_findings_cases path s l with hcase | ⟨e, hcase, he⟩
    · refine ⟨new2, by rw [hnew2, hcase], ?_⟩
      intro fd hfd
      have := hb2 fd hfd
      rw [stepR_lineNum] at this
      constructor <;> [omega; (simp only [List.length_cons]; omega)]
    · refine ⟨e :: new2, by rw [hnew2, hcase]; simp, ?_⟩
      intro fd hfd
      rcases List.mem_cons.mp hfd with rfl | hfd2
      · rw [he]
        constructor <;> [omega; (simp only [List.length_cons]; omega)]
      · have := hb2 fd hfd2
        rw [stepR_lineNum] at this
        constructor <;> [omega; (simp only [List.length_cons]; omega)]

theorem scanR_inF (path : String) (ls : List String) (s : RState)
    (h : ∀ l ∈ ls, trimGo l ≠ "\x7d") (hin : s.inFunction = true) :
    (scanR path s ls).inFunction = true := by
  induction ls generalizing s with
  | nil => exact hin
  | cons l ls ih =>
    simp only [scanR]
    exact ih _ (fun x hx => h x (List.mem_cons_of_mem _ hx))
      (stepR_inF path s l (h l (List.mem_cons_self _ _)) hin)

theorem scanR_seg_state (path : String) (ls : List String) (s : RState)
    (h : ∀ l ∈ ls, isFuncDeclLine (trimGo l) = false ∧ trimGo l ≠ "\x7d" ∧
         hasGuardToken (trimGo l) = false ∧ isCallSignal (trimGo l) = false)
    (hin : s.inFunction = true) (hg : s.hasGuard = false) :
    (scanR path s ls).inFunction = true ∧ (scanR path s ls).hasGuard = false ∧
    (scanR path s ls).sawExternalCall = s.sawExternalCall ∧
    (scanR path s ls).callLine = s.callLine := by
  induction ls generalizing s with
  | nil => exact ⟨hin, hg, rfl, rfl⟩
  | cons l ls ih =>
    obtain ⟨hl1, hl2, hl3, hl4⟩ := h l (List.mem_cons_self _ _)
    obtain ⟨c1, c2, c3, c4⟩ := stepR_state_nofun path s l hl1 hl2 hin
    rw [hl3, Bool.or_false] at c2
    rw [hl4, Bool.or_false] at c3
    rw [hg] at c2
    simp only [hl4, Bool.false_eq_true, if_false] at c4
    simp only [scanR]
    obtain ⟨d1, d2, d3, d4⟩ := ih (stepR path s l) (fun x hx => h x (List.mem_cons_of_mem _ hx)) c1 c2
    exact ⟨d1, d2, by rw [d3, c3], by rw [d4, c4]⟩

theorem scanR_seg_state_weak (path : String) (ls : List String) (s : RState)
    (h : ∀ l ∈ ls, isFuncDeclLine (trimGo l) = false ∧ trimGo l ≠ "\x7d" ∧
         hasGuardToken (trimGo l) = false)
    (hin : s.inFunction = true) (hg : s.hasGuard = false) :
    (scanR path s ls).inFunction = true ∧ (scanR path s ls).hasGuard = false := by
  induction ls generalizing s with
  | nil => exact ⟨hin, hg⟩
  | cons l ls ih =>
    obtain ⟨hl1, hl2, hl3⟩ := h l (List.mem_cons_self _ _)
    obtain ⟨c1, c2, _, _⟩ := stepR_state_nofun path s l hl1 hl2 hin
    rw [hl3, Bool.or_false, hg] at c2
    simp only [scanR]
    exact ih (stepR path s l) (fun x hx => h x (List.mem_cons_of_mem _ hx)) c1 c2

theorem scanR_seg_guard (path : String) (ls : List String) (s : RState)
    (h : ∀ l ∈ ls, isFuncDeclLine (trimGo l) = false) (hg : s.hasGuard = true) :
    (scanR path s ls).hasGuard = true ∧ (scanR path s ls).findings = s.findings := by
  induction ls generalizing s with
  | nil => exact ⟨hg, rfl⟩
  | cons l ls ih =>
    obtain ⟨c1, c2⟩ := stepR_noemit_hasGuard path s l (h l (List.mem_cons_self _ _)) hg
    simp only [scanR]
    obtain ⟨d1, d2⟩ := ih (stepR path s l) (fun x hx => h x (List.mem_cons_of_mem _ hx)) c1
    exact ⟨d1, by rw [d2, c2]⟩

/-- C1 (amended): within a function body of a scanned file, a non-comment
line containing a state-mutation signal emits exactly one High-severity
finding with check custom-reentrancy-ordering and lines equal to
[last-call-line, mutation-line], whenever an external-call signal has been
seen in the function at or before that line and no guard signal has
appeared in the function at or before that line.  Guard suppression takes
effect only from the guard line onward; it does not erase findings already
emitted for earlier mutation lines (see the counterexample). -/
theorem c1_amended_reentrancy_emission (path : String) (pre seg1 seg2 post : List String) (d c m : String)
    (hd : isFuncDeclLine (trimGo d) = true)
    (hseg : ∀ l ∈ seg1 ++ c :: seg2 ++ [m], isFuncDeclLine (trimGo l) = false ∧ trimGo l ≠ "\x7d")
    (hguard : ∀ l ∈ d :: seg1 ++ c :: seg2 ++ [m], hasGuardToken (trimGo l) = false)
    (hc : isCallSignal (trimGo c) = true)
    (hnc : ∀ l ∈ seg2 ++ [m], isCallSignal (trimGo l) = false)
    (hm : isMutSignal (trimGo m) = true) :
    ((checkReentrancyInFile path (pre ++ d :: seg1 ++ c :: seg2 ++ m :: post)).filter
        (fun fd => fd.lines.getD 1 0 == ((pre.length + seg1.length + seg2.length + 3 : Nat) : Int))).map
        (fun fd => (fd.lines, fd.severity, fd.check))
      = [([((pre.length + seg1.length + 2 : Nat) : Int),
           ((pre.length + seg1.length + seg2.length + 3 : Nat) : Int)],
          "High", "custom-reentrancy-ordering")] := by
  set sA := scanR path initR pre with hsA
  set sB := stepR path sA d with hsB
  set sC := scanR path sB seg1 with hsC
  set sD := stepR path sC c with hsD
  set sE := scanR path sD seg2 with hsE
  set sF := stepR path sE m with hsF
  have hseg_c : isFuncDeclLine (trimGo c) = false ∧ trimGo c ≠ "\x7d" := by
    apply hseg; simp
  have hseg_m : isFuncDeclLine (trimGo m) = false ∧ trimGo m ≠ "\x7d" := by
    apply hseg; simp
  have hguard_d : hasGuardToken (trimGo d) = false := by apply hguard; simp
  have hguard_c : hasGuardToken (trimGo c) = false := by apply hguard; simp
  have hguard_m : hasGuardToken (trimGo m) = false := by apply hguard; simp
  have hnc_m : isCallSignal (trimGo m) = false := by apply hnc; simp
  have hA_num : sA.lineNum = pre.length := by
    rw [hsA, scanR_lineNum]; simp [initR]
  have hB_num : sB.lineNum = pre.length + 1 := by rw [hsB, stepR_lineNum, hA_num]
  have hC_num : sC.lineNum = pre.length + 1 + seg1.length := by
    rw [hsC, scanR_lineNum, hB_num]
  have hD_num : sD.lineNum = pre.length + seg1.length + 2 := by
    rw [hsD, stepR_lineNum, hC_num]; omega
  have hE_num : sE.lineNum = pre.length + seg1.length + 2 + seg2.length := by
    rw [hsE, scanR_lineNum, hD_num]
  have hd_ne : trimGo d ≠ "\x7d" := by
    intro heq; rw [heq] at hd; exact absurd hd (by decide)
  have hB := stepR_decl path sA d hd hguard_d
  rw [← hsB] at hB
  rw [if_neg hd_ne] at hB
  have hC := scanR_seg_state_weak path seg1 sB
    (fun l hl => by
      refine ⟨(hseg l ?_).1, (hseg l ?_).2, hguard l ?_⟩ <;> simp [hl])
    hB.1 hB.2
  rw [← hsC] at hC
  have hD0 := stepR_state_nofun path sC c hseg_c.1 hseg_c.2 hC.1
  rw [← hsD] at hD0
  have hD_inF : sD.inFunction = true := hD0.1
  have hD_guard : sD.hasGuard = false := by
    rw [hD0.2.1, hC.2, hguard_c, Bool.or_false]
  have hD_saw : sD.sawExternalCall = true := by
    rw [hD0.2.2.1, hc, Bool.or_true]
  have hD_call : sD.callLine = pre.length + seg1.length + 2 := by
    rw [hD0.2.2.2, if_pos hc, hC_num]; omega
  have hE := scanR_seg_state path seg2 sD
    (fun l hl => by
      refine ⟨(hseg l ?_).1, (hseg l ?_).2, hguard l ?_, hnc l ?_⟩ <;> simp [hl])
    hD_inF hD_guard
  rw [← hsE] at hE
  have hE_guard : sE.hasGuard = false := hE.2.1
  have hE_saw : sE.sawExternalCall = true := by rw [hE.2.2.1, hD_saw]
  have hE_call : sE.callLine = pre.length + seg1.length + 2 := by
    rw [hE.2.2.2, hD_call]
  have hF := stepR_emit path sE m hseg_m.1 hE.1 hE_guard hguard_m hE_saw hnc_m hm
  rw [← hsF] at hF
  rw [hE_call, hE_num] at hF
  have hsplit : scanR path initR (pre ++ d :: seg1 ++ c :: seg2 ++ m :: post)
      = scanR path sF post := by
    simp only [scanR_append, scanR, hsA, hsB, hsC, hsD, hsE, hsF]
  have hpref : (scanR path initR (pre ++ d :: seg1 ++ c :: seg2)).findings = sE.findings := by
    simp only [scanR_append, scanR, hsA, hsB, hsC, hsD, hsE]
  obtain ⟨new1, hnew1, hb1⟩ := scanR_findings_ext path (pre ++ d :: seg1 ++ c :: seg2) initR
  rw [hpref] at hnew1
  have hE_findings : sE.findings = new1 := by rw [hnew1]; simp [initR]
  obtain ⟨new2, hnew2, hb2⟩ := scanR_findings_ext path post sF
  have hF_num : sF.lineNum = pre.length + seg1.length + seg2.length + 3 := by
    rw [hsF, stepR_lineNum, hE_num]; omega
  unfold checkReentrancyInFile
  rw [hsplit, hnew2, hF, hE_findings]
  rw [List.filter_append, List.filter_append]
  have hfil1 : new1.filter
      (fun fd => fd.lines.getD 1 0 == ((pre.length + seg1.length + seg2.length + 3 : Nat) : Int)) = [] := by
    rw [List.filter_eq_nil_iff]
    intro a ha
    have hbound := hb1 a ha
    simp only [List.length_append, List.length_cons, initR] at hbound
    simp only [beq_iff_eq]
    intro heq
    rw [heq] at hbound
    have := hbound.2
    push_cast at this
    omega
  have hfil2 : new2.filter
      (fun fd => fd.lines.getD 1 0 == ((pre.length + seg1.length + seg2.length + 3 : Nat) : Int)) = [] := by
    rw [List.filter_eq_nil_iff]
    intro a ha
    have hbound := hb2 a ha
    rw [hF_num] at hbound
    simp only [beq_iff_eq]
    intro heq
    rw [heq] at hbound
    have := hbound.1
    push_cast at this
    omega
  rw [hfil1, hfil2]
  simp only [List.nil_append, List.append_nil]
  simp only [mkReentrancyFinding, List.filter, List.map, List.getD_cons_succ,
    List.getD_cons_zero]
  split
  · simp only [List.map_cons, List.map_nil, List.cons.injEq, and_true, Prod.mk.injEq]
    norm_num
    omega
  · next heq =>
      rw [beq_eq_false_iff_ne] at heq
      exact absurd (by omega) heq

theorem stepR_decl_inF (path : String) (s : RState) (raw : String)
    (h1 : isFuncDeclLine (trimGo raw) = true) :
    (stepR path s raw).inFunction = (if trimGo raw = "\x7d" then false else true) := by
  simp only [stepR, h1, if_true]
  split_ifs <;> simp_all

/-- C10: guard detection in the reentrancy detector is not
comment-filtered: if any line g of a function contains a guard token — the
hypothesis hg places no comment restriction on g, which may be a comment
line starting with the // marker — then no finding is emitted for any later line m
of the function, even when an unguarded external call precedes it. -/
theorem c10_guard_not_comment_filtered (path : String) (pre seg1 seg2 post : List String) (d g m : String)
    (hd : isFuncDeclLine (trimGo d) = true)
    (hs1 : ∀ l ∈ seg1, trimGo l ≠ "\x7d")
    (hg : hasGuardToken (trimGo g) = true)
    (hs2 : ∀ l ∈ seg2 ++ [m], isFuncDeclLine (trimGo l) = false) :
    (checkReentrancyInFile path (pre ++ d :: seg1 ++ g :: seg2 ++ m :: post)).filter
        (fun fd => fd.lines.getD 1 0 == ((pre.length + seg1.length + seg2.length + 3 : Nat) : Int)) = [] := by
  set sA := scanR path initR pre with hsA
  set sB := stepR path sA d with hsB
  set sC := scanR path sB seg1 with hsC
  set sD := stepR path sC g with hsD
  set sE := scanR path sD seg2 with hsE
  set sF := stepR path sE m with hsF
  have hs2_m : isFuncDeclLine (trimGo m) = false := by apply hs2; simp
  have hd_ne : trimGo d ≠ "\x7d" := by
    intro heq; rw [heq] at hd; exact absurd hd (by decide)
  have hB_inF : sB.inFunction = true := by
    rw [hsB, stepR_decl_inF path sA d hd, if_neg hd_ne]
  have hC_inF : sC.inFunction = true := scanR_inF path seg1 sB hs1 hB_inF
  have hD := stepR_guard path sC g hg hC_inF
  rw [← hsD] at hD
  have hE := scanR_seg_guard path seg2 sD (fun l hl => hs2 l (by simp [hl])) hD.1
  rw [← hsE] at hE
  have hF := stepR_noemit_hasGuard path sE m hs2_m hE.1
  rw [← hsF] at hF
  have hFfind : sF.findings = sC.findings := by rw [hF.2, hE.2, hD.2]
  have hpref : (scanR path initR (pre ++ d :: seg1)).findings = sC.findings := by
    simp only [scanR_append, scanR, hsA, hsB, hsC]
  obtain ⟨new1, hnew1, hb1⟩ := scanR_findings_ext path (pre ++ d :: seg1) initR
  rw [hpref] at hnew1
  have hC_find : sC.findings = new1 := by rw [hnew1]; simp [initR]
  obtain ⟨new2, hnew2, hb2⟩ := scanR_findings_ext path post sF
  have hF_num : sF.lineNum = pre.length + seg1.length + seg2.length + 3 := by
    rw [hsF, stepR_lineNum, hsE, scanR_lineNum, hsD, stepR_lineNum, hsC, scanR_lineNum,
        hsB, stepR_lineNum, hsA, scanR_lineNum]
    simp [initR]
    omega
  have hsplit : scanR path initR (pre ++ d :: seg1 ++ g :: seg2 ++ m :: post)
      = scanR path sF post := by
    simp only [scanR_append, scanR, hsA, hsB, hsC, hsD, hsE, hsF]
  unfold checkReentrancyInFile
  rw [hsplit, hnew2, hFfind, hC_find, List.filter_append]
  have hfil1 : new1.filter
      (fun fd => fd.lines.getD 1 0 == ((pre.length + seg1.length + seg2.length + 3 : Nat) : Int)) = [] := by
    rw [List.filter_eq_nil_iff]
    intro a ha
    have hbound := hb1 a ha
    simp only [List.length_append, List.length_cons, initR] at hbound
    simp only [beq_iff_eq]
    intro heq
    rw [heq] at hbound
    have := hbound.2
    push_cast at this
    omega
  have hfil2 : new2.filter
      (fun fd => fd.lines.getD 1 0 == ((pre.length + seg1.length + seg2.length + 3 : Nat) : Int)) = [] := by
    rw [List.filter_eq_nil_iff]
    intro a ha
    have hbound := hb2 a ha
    rw [hF_num] at hbound
    simp only [beq_iff_eq]
    intro heq
    rw [heq] at hbound
    have := hbound.1
    push_cast at this
    omega
  rw [hfil1, hfil2, List.append_nil]

theorem stepI_preserves (path : String) (s : IState) (raw : String)
    (hpr : goHasPrefix (trimGo raw) "pragma solidity" = true →
      8 ≤ (extractSolidityVersion (trimGo raw)).2)
    (hmin : 8 ≤ s.solidityMinor)
    (hfd : ∀ fd ∈ s.findings, fd.check ≠ "custom-integer-overflow") :
    8 ≤ (stepI path s raw).solidityMinor ∧
    ∀ fd ∈ (stepI path s raw).findings, fd.check ≠ "custom-integer-overflow" := by
  simp only [stepI]
  by_cases hp : goHasPrefix (trimGo raw) "pragma solidity" = true
  · have h8 := hpr hp
    simp only [hp, if_true]
    split_ifs <;> refine ⟨by simpa using h8, ?_⟩ <;>
      first
        | (exfalso
           simp_all only [Bool.and_eq_true, decide_eq_true_eq, beq_iff_eq]
           omega)
        | (simp only [List.forall_mem_append, List.forall_mem_cons]
           exact ⟨hfd, by simp only [mkUncheckedFinding]; decide, by simp⟩)
        | exact hfd
  · simp only [hp, Bool.false_eq_true, if_false]
    split_ifs <;> refine ⟨by simpa using hmin, ?_⟩ <;>
      first
        | (exfalso
           simp_all only [Bool.and_eq_true, decide_eq_true_eq, beq_iff_eq]
           omega)
        | (simp only [List.forall_mem_append, List.forall_mem_cons]
           exact ⟨hfd, by simp only [mkUncheckedFinding]; decide, by simp⟩)
        | exact hfd

theorem scanI_preserves (path : String) (ls : List String) (s : IState)
    (hpr : ∀ l ∈ ls, goHasPrefix (trimGo l) "pragma solidity" = true →
      8 ≤ (extractSolidityVersion (trimGo l)).2)
    (hmin : 8 ≤ s.solidityMinor)
    (hfd : ∀ fd ∈ s.findings, fd.check ≠ "custom-integer-overflow") :
    ∀ fd ∈ (scanI path s ls).findings, fd.check ≠ "custom-integer-overflow" := by
  induction ls generalizing s with
  | nil => exact hfd
  | cons l ls ih =>
    obtain ⟨c1, c2⟩ := stepI_preserves path s l (hpr l (List.mem_cons_self _ _)) hmin hfd
    simp only [scanI]
    exact ih (stepI path s l) (fun x hx => hpr x (List.mem_cons_of_mem _ hx)) c1 c2

theorem stepI_pragma_safe (path : String) (s : IState) (raw : String)
    (hp : goHasPrefix (trimGo raw) "pragma solidity" = true)
    (h8 : 8 ≤ (extractSolidityVersion (trimGo raw)).2)
    (hfd : ∀ fd ∈ s.findings, fd.check ≠ "custom-integer-overflow") :
    8 ≤ (stepI path s raw).solidityMinor ∧
    ∀ fd ∈ (stepI path s raw).findings, fd.check ≠ "custom-integer-overflow" := by
  simp only [stepI, hp, if_true]
  split_ifs <;> refine ⟨by simpa using h8, ?_⟩ <;>
    first
      | (exfalso
         simp_all only [Bool.and_eq_true, decide_eq_true_eq, beq_iff_eq]
         omega)
      | (simp only [List.forall_mem_append, List.forall_mem_cons]
         exact ⟨hfd, by simp only [mkUncheckedFinding]; decide, by simp⟩)
      | exact hfd

/-- C7 (amended): when the first line of the file is a version pragma
whose parse yields minor version at least 8 — which includes every
unparsable pragma, since extractSolidityVersion falls back to 0.8 — and
every later pragma line also parses to at least 0.8, the integer-overflow
detector emits no High-severity custom-integer-overflow finding.  A file
with no pragma line at all is instead scanned with the initial version
0.0, below the threshold, and does emit such findings (see the
counterexample). -/
theorem c7_amended_safe_pragma_no_high_findings (path p0 : String) (rest : List String)
    (hp : goHasPrefix (trimGo p0) "pragma solidity" = true)
    (hv : 8 ≤ (extractSolidityVersion (trimGo p0)).2)
    (hrest : ∀ l ∈ rest, goHasPrefix (trimGo l) "pragma solidity" = true →
      8 ≤ (extractSolidityVersion (trimGo l)).2) :
    (checkIntegerOverflowInFile path (p0 :: rest)).all
      (fun fd => fd.check != "custom-integer-overflow") = true := by
  unfold checkIntegerOverflowInFile
  simp only [scanI]
  have h0 := stepI_pragma_safe path initI p0 hp hv (by simp [initI])
  have hall := scanI_preserves path rest (stepI path initI p0) hrest h0.1 h0.2
  rw [List.all_eq_true]
  intro fd hfd
  simpa [bne_iff_ne] using hall fd hfd

theorem stepI_lineNum (path : String) (s : IState) (raw : String) :
    (stepI path s raw).lineNum = s.lineNum + 1 := by
  simp only [stepI]

theorem scanI_lineNum (path : String) (ls : List String) (s : IState) :
    (scanI path s ls).lineNum = s.lineNum + ls.length := by
  induction ls generalizing s with
  | nil => simp [scanI]
  | cons l ls ih =>
    simp only [scanI, ih, stepI_lineNum, List.length_cons]
    omega

theorem stepI_noarith (path : String) (s : IState) (raw : String)
    (hA : containsArithmetic (trimGo raw) = false) :
    (stepI path s raw).findings = s.findings := by
  simp only [stepI]
  split_ifs <;> simp_all

theorem scanI_noarith (path : String) (ls : List String) (s : IState)
    (hA : ∀ l ∈ ls, containsArithmetic (trimGo l) = false) :
    (scanI path s ls).findings = s.findings := by
  induction ls generalizing s with
  | nil => rfl
  | cons l ls ih =>
    simp only [scanI]
    rw [ih (stepI path s l) (fun x hx => hA x (List.mem_cons_of_mem _ hx)),
        stepI_noarith path s l (hA l (List.mem_cons_self _ _))]

theorem stepI_noopen (path : String) (s : IState) (raw : String)
    (h1 : trimGo raw ≠ "unchecked \x7b") (h2 : trimGo raw ≠ "unchecked\x7b")
    (hin : s.inUnchecked = false) :
    (stepI path s raw).inUnchecked = false := by
  simp only [stepI]
  split_ifs <;> simp_all

theorem scanI_noopen (path : String) (ls : List String) (s : IState)
    (h : ∀ l ∈ ls, trimGo l ≠ "unchecked \x7b" ∧ trimGo l ≠ "unchecked\x7b")
    (hin : s.inUnchecked = false) :
    (scanI path s ls).inUnchecked = false := by
  induction ls generalizing s with
  | nil => exact hin
  | cons l ls ih =>
    simp only [scanI]
    exact ih (stepI path s l) (fun x hx => h x (List.mem_cons_of_mem _ hx))
      (stepI_noopen path s l (h l (List.mem_cons_self _ _)).1 (h l (List.mem_cons_self _ _)).2 hin)

theorem stepI_nopragma (path : String) (s : IState) (raw : String)
    (hp : goHasPrefix (trimGo raw) "pragma solidity" = false) :
    (stepI path s raw).solidityMajor = s.solidityMajor ∧
    (stepI path s raw).solidityMinor = s.solidityMinor := by
  simp [stepI, hp]

theorem scanI_nopragma (path : String) (ls : List String) (s : IState)
    (hp : ∀ l ∈ ls, goHasPrefix (trimGo l) "pragma solidity" = false) :
    (scanI path s ls).solidityMajor = s.solidityMajor ∧
    (scanI path s ls).solidityMinor = s.solidityMinor := by
  induction ls generalizing s with
  | nil => exact ⟨rfl, rfl⟩
  | cons l ls ih =>
    simp only [scanI]
    obtain ⟨c1, c2⟩ := stepI_nopragma path s l (hp l (List.mem_cons_self _ _))
    obtain ⟨d1, d2⟩ := ih (stepI path s l) (fun x hx => hp x (List.mem_cons_of_mem _ hx))
    exact ⟨by rw [d1, c1], by rw [d2, c2]⟩

theorem stepI_pragma_version (path : String) (s : IState) (raw : String)
    (hp : goHasPrefix (trimGo raw) "pragma solidity" = true) :
    (stepI path s raw).solidityMajor = (extractSolidityVersion (trimGo raw)).1 ∧
    (stepI path s raw).solidityMinor = (extractSolidityVersion (trimGo raw)).2 := by
  simp [stepI, hp]

theorem stepI_open (path : String) (s : IState) (raw : String)
    (hu : trimGo raw = "unchecked \x7b" ∨ trimGo raw = "unchecked\x7b") :
    stepI path s raw = ⟨s.lineNum + 1, s.solidityMajor, s.solidityMinor, true,
      s.lineNum + 1, s.findings⟩ := by
  have e1 : goHasPrefix "unchecked \x7b" "pragma solidity" = false := by decide
  have e2 : goHasPrefix "unchecked\x7b" "pragma solidity" = false := by decide
  have e3 : containsArithmetic "unchecked \x7b" = false := by decide
  have e4 : containsArithmetic "unchecked\x7b" = false := by decide
  rcases hu with h | h <;> simp [stepI, h, e1, e2, e3, e4]

theorem stepI_close (path : String) (s : IState) (raw : String)
    (hw : trimGo raw = "\x7d") :
    stepI path s raw = ⟨s.lineNum + 1, s.solidityMajor, s.solidityMinor, false,
      s.uncheckedLine, s.findings⟩ := by
  have e1 : goHasPrefix "\x7d" "pragma solidity" = false := by decide
  have e2 : containsArithmetic "\x7d" = false := by decide
  cases hb : s.inUnchecked <;> simp [stepI, hw, e1, e2, hb]

theorem scanI_append (path : String) (xs ys : List String) (s : IState) :
    scanI path s (xs ++ ys) = scanI path (scanI path s xs) ys := by
  induction xs generalizing s with
  | nil => rfl
  | cons x xs ih => simp only [List.cons_append, scanI]; exact ih _

theorem stepI_unchecked_emit (path : String) (s : IState) (raw : String)
    (hpr : goHasPrefix (trimGo raw) "pragma solidity" = false)
    (hmaj : s.solidityMajor = 0) (hmin : s.solidityMinor = 8)
    (hin : s.inUnchecked = true)
    (hno1 : trimGo raw ≠ "unchecked \x7b") (hno2 : trimGo raw ≠ "unchecked\x7b")
    (hnc : trimGo raw ≠ "\x7d")
    (ha : containsArithmetic (trimGo raw) = true)
    (hcom : goHasPrefix (trimGo raw) "//" = false) :
    stepI path s raw = ⟨s.lineNum + 1, 0, 8, true, s.uncheckedLine,
      s.findings ++ [mkUncheckedFinding path s.findings.length s.uncheckedLine (s.lineNum + 1)]⟩ := by
  simp [stepI, hpr, hmaj, hmin, hin, hno1, hno2, hnc, ha, hcom]

/-- C8: a file that declares version 0.8 before a single unchecked block
— an opening-brace line carrying the unchecked keyword, closed by a bare
closing brace — whose body is the only arithmetic line of the file yields
exactly one Low-severity custom-unchecked-arithmetic finding, whose lines
are the block-opening line number followed by the arithmetic line
number. -/
theorem c8_unchecked_block_single_low_finding (path : String) (p1 p2 post : List String) (pg u b w : String)
    (hpre_arith : ∀ l ∈ p1 ++ pg :: p2, containsArithmetic (trimGo l) = false)
    (hpre_open : ∀ l ∈ p1 ++ pg :: p2, trimGo l ≠ "unchecked \x7b" ∧ trimGo l ≠ "unchecked\x7b")
    (hpg : goHasPrefix (trimGo pg) "pragma solidity" = true)
    (hver : extractSolidityVersion (trimGo pg) = (0, 8))
    (hp2 : ∀ l ∈ p2, goHasPrefix (trimGo l) "pragma solidity" = false)
    (hu : trimGo u = "unchecked \x7b" ∨ trimGo u = "unchecked\x7b")
    (hb : containsArithmetic (trimGo b) = true ∧ goHasPrefix (trimGo b) "//" = false ∧
          goHasPrefix (trimGo b) "pragma solidity" = false ∧ trimGo b ≠ "unchecked \x7b" ∧
          trimGo b ≠ "unchecked\x7b" ∧ trimGo b ≠ "\x7d")
    (hw : trimGo w = "\x7d")
    (hpost : ∀ l ∈ post, containsArithmetic (trimGo l) = false) :
    (checkIntegerOverflowInFile path (p1 ++ pg :: p2 ++ u :: b :: w :: post)).map
      (fun fd => (fd.check, fd.severity, fd.lines))
    = [("custom-unchecked-arithmetic", "Low",
        [((p1.length + p2.length + 2 : Nat) : Int), ((p1.length + p2.length + 3 : Nat) : Int)])] := by
  set s1 := scanI path initI p1 with hs1
  set s2 := stepI path s1 pg with hs2
  set s3 := scanI path s2 p2 with hs3
  set s4 := stepI path s3 u with hs4
  set s5 := stepI path s4 b with hs5
  set s6 := stepI path s5 w with hs6
  have hsplit : scanI path initI (p1 ++ pg :: p2 ++ u :: b :: w :: post)
      = scanI path s6 post := by
    simp only [scanI_append, scanI, hs1, hs2, hs3, hs4, hs5, hs6]
  -- findings stay empty through the preamble
  have hf1 : s1.findings = [] := by
    rw [hs1, scanI_noarith path p1 initI (fun l hl => hpre_arith l (by simp [hl]))]; rfl
  have hf2 : s2.findings = [] := by
    rw [hs2, stepI_noarith path s1 pg (hpre_arith pg (by simp)), hf1]
  have hf3 : s3.findings = [] := by
    rw [hs3, scanI_noarith path p2 s2 (fun l hl => hpre_arith l (by simp [hl])), hf2]
  -- no unchecked block is open at the end of the preamble
  have hu1 : s1.inUnchecked = false := by
    rw [hs1]
    exact scanI_noopen path p1 initI (fun l hl => hpre_open l (by simp [hl])) rfl
  have hu2 : s2.inUnchecked = false := by
    rw [hs2]
    exact stepI_noopen path s1 pg (hpre_open pg (by simp)).1 (hpre_open pg (by simp)).2 hu1
  have hu3 : s3.inUnchecked = false := by
    rw [hs3]
    exact scanI_noopen path p2 s2 (fun l hl => hpre_open l (by simp [hl])) hu2
  -- the version is 0.8 from the pragma line on
  have hv2 := stepI_pragma_version path s1 pg hpg
  rw [← hs2, hver] at hv2
  have hv3 := scanI_nopragma path p2 s2 hp2
  rw [← hs3] at hv3
  have hv3a : s3.solidityMajor = 0 := by rw [hv3.1, hv2.1]
  have hv3b : s3.solidityMinor = 8 := by rw [hv3.2, hv2.2]
  -- line numbers
  have hn3 : s3.lineNum = p1.length + p2.length + 1 := by
    rw [hs3, scanI_lineNum, hs2, stepI_lineNum, hs1, scanI_lineNum]
    simp [initI]; omega
  -- the unchecked opener
  have h4 := stepI_open path s3 u hu
  rw [← hs4] at h4
  -- the arithmetic line inside the block
  have h5 := stepI_unchecked_emit path s4 b hb.2.2.1
    (by rw [h4, hv3a]) (by rw [h4, hv3b]) (by rw [h4])
    hb.2.2.2.1 hb.2.2.2.2.1 hb.2.2.2.2.2 hb.1 hb.2.1
  rw [← hs5] at h5
  -- the closing brace
  have h6 := stepI_close path s5 w hw
  rw [← hs6] at h6
  -- assemble
  unfold checkIntegerOverflowInFile
  rw [hsplit, scanI_noarith path post s6 hpost, h6, h5, h4, hf3, hn3]
  simp only [mkUncheckedFinding, List.map_cons, List.map_nil, List.nil_append,
    List.length_nil]

theorem summStep_total (s : Summary) (f : Finding) : (summStep s f).total = s.total := by
  unfold summStep
  split_ifs <;> rfl

theorem summStep_sum (s : Summary) (f : Finding) :
    (summStep s f).critical + (summStep s f).high + (summStep s f).medium +
      (summStep s f).low + (summStep s f).informational + (summStep s f).optimization
    = s.critical + s.high + s.medium + s.low + s.informational + s.optimization +
      (if recognizedSeverity f.severity then 1 else 0) := by
  unfold summStep
  split_ifs <;> simp_all [recognizedSeverity] <;> ring

theorem foldl_summStep_total (fs : List Finding) (s : Summary) :
    (fs.foldl summStep s).total = s.total := by
  induction fs generalizing s with
  | nil => rfl
  | cons f fs ih => rw [List.foldl_cons, ih, summStep_total]

theorem foldl_summStep_sum (fs : List Finding) (s : Summary) :
    (fs.foldl summStep s).critical + (fs.foldl summStep s).high +
      (fs.foldl summStep s).medium + (fs.foldl summStep s).low +
      (fs.foldl summStep s).informational + (fs.foldl summStep s).optimization
    = s.critical + s.high + s.medium + s.low + s.informational + s.optimization +
      ((fs.countP (fun fd => recognizedSeverity fd.severity)) : Int) := by
  induction fs generalizing s with
  | nil => simp
  | cons f fs ih =>
    rw [List.foldl_cons, ih (summStep s f), summStep_sum, List.countP_cons]
    by_cases h : recognizedSeverity f.severity
    · simp [h]; ring_nf
    · simp [h]

/-- C2 (amended): for every finding sequence, the Summary built by
buildSummary satisfies total = Critical + High + Medium + Low +
Informational + Optimization + (number of findings whose severity is not
one of the six enumerated values).  The claimed invariant total equals
the sum of the six counts holds exactly when every severity is
recognized; an unrecognized severity is counted in total but in no
bucket. -/
theorem c2_amended_summary_total (fs : List Finding) :
    (buildSummary fs).total
      = (buildSummary fs).critical + (buildSummary fs).high + (buildSummary fs).medium +
        (buildSummary fs).low + (buildSummary fs).informational + (buildSummary fs).optimization +
        ((fs.countP (fun fd => !(recognizedSeverity fd.severity))) : Int) := by
  unfold buildSummary
  rw [foldl_summStep_total, foldl_summStep_sum]
  have hsplit : fs.length = fs.countP (fun fd => recognizedSeverity fd.severity) +
      fs.countP (fun fd => !(recognizedSeverity fd.severity)) := by
    induction fs with
    | nil => rfl
    | cons f fs ih =>
      rw [List.length_cons, List.countP_cons, List.countP_cons, ih]
      by_cases h : recognizedSeverity f.severity <;> simp [h] <;> omega
  simp only []
  rw [hsplit]
  push_cast
  ring

theorem keepFirstByKey_nil : keepFirstByKey [] = [] := by
  rw [keepFirstByKey]

theorem keepFirstByKey_cons (f : Finding) (rest : List Finding) :
    keepFirstByKey (f :: rest)
      = f :: keepFirstByKey (rest.filter (fun g => dedupKey g != dedupKey f)) := by
  rw [keepFirstByKey]

theorem dedupAux_eq_keepFirst (fs : List Finding) (seen : List String) :
    dedupAux fs seen = keepFirstByKey (fs.filter (fun f => !(decide (dedupKey f ∈ seen)))) := by
  induction fs generalizing seen with
  | nil => simp [dedupAux, keepFirstByKey_nil]
  | cons f rest ih =>
    by_cases h : dedupKey f ∈ seen
    · rw [dedupAux, if_pos h, ih seen]
      simp [h]
    · rw [dedupAux, if_neg h, ih (dedupKey f :: seen)]
      simp only [List.filter_cons, h, decide_False, Bool.not_false, if_true]
      rw [keepFirstByKey_cons, List.filter_filter]
      congr 1
      apply congrArg
      apply List.filter_congr
      intro g _
      by_cases h1 : dedupKey g = dedupKey f <;> by_cases h2 : dedupKey g ∈ seen <;>
        simp [h1, h2, List.mem_cons]

theorem dedupAux_idem (fs : List Finding) (seen : List String) :
    dedupAux (dedupAux fs seen) seen = dedupAux fs seen := by
  induction fs generalizing seen with
  | nil => rfl
  | cons f rest ih =>
    by_cases h : dedupKey f ∈ seen
    · rw [dedupAux, if_pos h, ih]
    · rw [dedupAux, if_neg h]
      rw [dedupAux, if_neg h]
      congr 1
      have step : dedupAux (dedupAux rest (dedupKey f :: seen)) (dedupKey f :: seen)
          = dedupAux rest (dedupKey f :: seen) := ih (dedupKey f :: seen)
      exact step

/-- C4 (amended): deduplication keeps exactly the first finding observed
for each derived key STRING swcRef|file(|first-line) in concatenation
order — it equals the keep-first-by-key-string recursion — and it is
idempotent.  Because the key is a pipe-joined string rather than the
tuple of the claim, two findings whose (cross-reference id, file, first
line) tuples differ can still collide when a component contains a pipe
character (see the counterexample). -/
theorem c4_amended_dedup_keepfirst_idempotent (fs : List Finding) :
    deduplicate fs = keepFirstByKey fs ∧ deduplicate (deduplicate fs) = deduplicate fs := by
  constructor
  · unfold deduplicate
    rw [dedupAux_eq_keepFirst]
    congr 1
    have : ∀ f : Finding, (!(decide (dedupKey f ∈ ([] : List String)))) = true := by
      intro f; simp
    calc fs.filter (fun f => !(decide (dedupKey f ∈ ([] : List String))))
        = fs.filter (fun _ => true) := List.filter_congr (fun x _ => this x)
      _ = fs := List.filter_true fs
  · exact dedupAux_idem fs []

/-- A machine value of 64-bit range wraps to itself. -/
theorem wrap64_eq_self (n : Int) (h1 : -9223372036854775808 ≤ n)
    (h2 : n < 9223372036854775808) : wrap64 n = n := by
  unfold wrap64
  rw [Int.emod_eq_of_lt (by omega) (by omega)]
  omega

/-- When the weighted sum of non-negative counts stays below 2^63, none
of the four Go int statements in Score overflows, so Score computes the
clamped exact sum. -/
theorem Score_no_overflow (r : AnalysisReport)
    (hc : 0 ≤ r.summary.critical) (hh : 0 ≤ r.summary.high)
    (hm : 0 ≤ r.summary.medium) (hl : 0 ≤ r.summary.low)
    (hof : r.summary.critical * 40 + r.summary.high * 20 + r.summary.medium * 10 +
      r.summary.low * 3 < 9223372036854775808) :
    Score r = if r.summary.critical * 40 + r.summary.high * 20 + r.summary.medium * 10 +
        r.summary.low * 3 > 100 then 100
      else r.summary.critical * 40 + r.summary.high * 20 + r.summary.medium * 10 +
        r.summary.low * 3 := by
  simp only [Score, addInt64, mulInt64]
  rw [wrap64_eq_self (r.summary.critical * 40) (by omega) (by omega),
      wrap64_eq_self (r.summary.high * 20) (by omega) (by omega),
      wrap64_eq_self (r.summary.medium * 10) (by omega) (by omega),
      wrap64_eq_self (r.summary.low * 3) (by omega) (by omega),
      wrap64_eq_self (0 + r.summary.critical * 40) (by omega) (by omega),
      wrap64_eq_self (0 + r.summary.critical * 40 + r.summary.high * 20) (by omega) (by omega),
      wrap64_eq_self (0 + r.summary.critical * 40 + r.summary.high * 20 +
        r.summary.medium * 10) (by omega) (by omega),
      wrap64_eq_self (0 + r.summary.critical * 40 + r.summary.high * 20 +
        r.summary.medium * 10 + r.summary.low * 3) (by omega) (by omega)]
  split_ifs <;> omega

/-- C5 (amended): for every report whose severity counts are non-negative
and whose weighted sum Critical*40 + High*20 + Medium*10 + Low*3 stays
below 2^63 — so that the Go int arithmetic inside Score does not
overflow — Score equals min(100, weighted sum), lies in [0, 100], and is
monotonically non-decreasing in each severity count, the comparison
report t also kept below the overflow bound; the Informational and
Optimization counts do not occur in the formula, so raising them never
changes the score.  Without the overflow bound the Go int wraps and all
three properties fail (see the counterexample). -/
theorem c5_amended_score_no_overflow (r t : AnalysisReport)
    (hc : 0 ≤ r.summary.critical) (hh : 0 ≤ r.summary.high)
    (hm : 0 ≤ r.summary.medium) (hl : 0 ≤ r.summary.low)
    (mc : r.summary.critical ≤ t.summary.critical) (mh : r.summary.high ≤ t.summary.high)
    (mm : r.summary.medium ≤ t.summary.medium) (ml : r.summary.low ≤ t.summary.low)
    (hofr : r.summary.critical * 40 + r.summary.high * 20 + r.summary.medium * 10 +
      r.summary.low * 3 < 9223372036854775808)
    (hoft : t.summary.critical * 40 + t.summary.high * 20 + t.summary.medium * 10 +
      t.summary.low * 3 < 9223372036854775808) :
    Score r = min 100 (r.summary.critical * 40 + r.summary.high * 20 +
        r.summary.medium * 10 + r.summary.low * 3) ∧
    0 ≤ Score r ∧ Score r ≤ 100 ∧ Score r ≤ Score t := by
  rw [Score_no_overflow r hc hh hm hl hofr,
      Score_no_overflow t (by omega) (by omega) (by omega) (by omega) hoft]
  simp only [min_def]
  split_ifs <;> refine ⟨?_, ?_, ?_, ?_⟩ <;> omega

/-- Concrete report for the Score witness. -/
def scoreDemoA : AnalysisReport := ⟨"", "", ⟨4, 1, 1, 1, 1, 0, 0⟩, []⟩

/-- Concrete report dominating scoreDemoA in every severity count. -/
def scoreDemoB : AnalysisReport := ⟨"", "", ⟨6, 3, 1, 1, 1, 0, 0⟩, []⟩

/-- Witness for c5_amended_score_no_overflow at concrete reports. -/
theorem c5_amended_score_no_overflow_witness :
    Score scoreDemoA = min 100 (scoreDemoA.summary.critical * 40 +
        scoreDemoA.summary.high * 20 + scoreDemoA.summary.medium * 10 +
        scoreDemoA.summary.low * 3) ∧
    0 ≤ Score scoreDemoA ∧ Score scoreDemoA ≤ 100 ∧ Score scoreDemoA ≤ Score scoreDemoB :=
  c5_amended_score_no_overflow scoreDemoA scoreDemoB (by decide) (by decide)
    (by decide) (by decide) (by decide) (by decide) (by decide) (by decide)
    (by decide) (by decide)

/-- Report whose counts are non-negative — inside the domain the claim
quantifies over — but whose Critical count of 2^60 overflows the Go int
weighted sum: 2^60 * 40 = 2^65 + 2^63 wraps to -2^63. -/
def scoreOverflowDemo : AnalysisReport :=
  ⟨"", "", ⟨0, 1152921504606846976, 0, 0, 0, 0, 0⟩, []⟩

/-- C5 (counterexample): scoreOverflowDemo has non-negative severity
counts, so it lies in the domain of the claim, yet the Go int weighted
sum wraps: Score returns -2^63, which differs from min(100, weighted
sum) = 100 and violates the claimed lower bound 0; monotonicity fails at
the same input, since the all-zero summary scores 0 > -2^63 with every
count smaller. -/
theorem c5_counterexample_int64_wrap :
    (0 ≤ scoreOverflowDemo.summary.critical ∧ 0 ≤ scoreOverflowDemo.summary.high ∧
     0 ≤ scoreOverflowDemo.summary.medium ∧ 0 ≤ scoreOverflowDemo.summary.low) ∧
    Score scoreOverflowDemo = -9223372036854775808 ∧
    Score scoreOverflowDemo ≠ min 100 (scoreOverflowDemo.summary.critical * 40 +
      scoreOverflowDemo.summary.high * 20 + scoreOverflowDemo.summary.medium * 10 +
      scoreOverflowDemo.summary.low * 3) ∧
    ¬ 0 ≤ Score scoreOverflowDemo := by
  refine ⟨by decide, by decide, by decide, by decide⟩

/-- C9 (amended): a target whose stat fails — the path does not exist, or
stat itself errors — makes the pipeline fail as a hard error during
validation, before any report is constructed.  A target that passes the
stat and extension checks but cannot be opened for reading does not: each
detector fails, Analyze swallows the failures, and a report carrying only
the externally supplied findings is produced (see the counterexample). -/
theorem c9_amended_stat_failure_hard_error (sortImpl : List Finding → List Finding) (fs : FileSystem)
    (target : String) (ext : List Finding)
    (h : fs.stat target = StatResult.notExist ∨ fs.stat target = StatResult.statError) :
    (runAnalyzePipeline sortImpl fs target ext).isOk = false := by
  rcases h with h | h <;> simp only [runAnalyzePipeline, ValidateTarget, h] <;> rfl

def fsMissingDemo : FileSystem :=
  ⟨fun _ => StatResult.notExist, fun _ => Except.error "missing",
   fun _ => Except.error "missing"⟩

/-- Witness for c9_amended_stat_failure_hard_error on a filesystem where
the target path does not exist. -/
theorem c9_amended_stat_failure_hard_error_witness :
    (runAnalyzePipeline id fsMissingDemo "contracts/token.sol" []).isOk = false :=
  c9_amended_stat_failure_hard_error id fsMissingDemo "contracts/token.sol" [] (Or.inl rfl)

def fsUnreadableDemo : FileSystem :=
  ⟨fun _ => StatResult.file, fun _ => Except.error "permission denied",
   fun _ => Except.error "permission denied"⟩

def extFindingDemo : Finding :=
  { emptyFinding with
      id := "EXT-1"
      source := "external"
      check := "slither-check"
      severity := "Low"
      file := "token.sol"
      swcRef := "SWC-999"
      lines := [1] }

/-- C9 (counterexample): the target stats as a regular .sol file but
every read fails with permission denied — an unreadable target, as with a
mode-000 file.  The claim says the analysis must fail hard and produce no
report, not even a partial one containing only the externally supplied
findings; the pipeline instead returns exactly that partial report.  The
identity sort placeholder is harmless here: any sorting pass maps the
singleton findings list to itself. -/
theorem c9_counterexample_unreadable_partial_report :
    (runAnalyzePipeline id fsUnreadableDemo "token.sol" [extFindingDemo]).toOption
      = some ⟨"token.sol", "", ⟨1, 0, 0, 0, 1, 0, 0⟩, [extFindingDemo]⟩ := by
  decide

def reentrancyDemoLines : List String :=
  ["function f() public \x7b",
   "    (bool ok,) = a.call\x7bvalue: v\x7d(\"\");",
   "    balances[a] -= 1;",
   "    bool mutex = true;",
   "    balances[a] -= 1;",
   "\x7d"]

/-- C1 (counterexample): in this single-function file the external call is
on line 2, a mutation on line 3, the guard token mutex appears on line 4,
and a second mutation follows on line 5.  The claim states that a guard
appearing anywhere in the function before a mutation line suppresses all
findings for that function, which would leave this file with zero
findings; the detector nevertheless emits the line-3 finding (and,
contrary to the first clause of the claim, emits nothing for line 5). -/
theorem c1_counterexample_guard_after_emission :
    (checkReentrancyInFile "d.sol" reentrancyDemoLines).map
      (fun fd => (fd.lines, fd.severity)) = [([2, 3], "High")] := by
  decide

/-- Witness for c1_amended_reentrancy_emission at a concrete file: call on
line 2, mutation on line 4, no guard. -/
theorem c1_amended_reentrancy_emission_witness :
    ((checkReentrancyInFile "w.sol"
        ([] ++ "function f() public \x7b" :: [] ++
          "    (bool ok,) = a.call\x7bvalue: v\x7d(\"\");" :: ["    require(ok);"] ++
          "    balances[a] -= 1;" :: ["\x7d"])).filter
        (fun fd => fd.lines.getD 1 0 ==
          ((([] : List String).length + ([] : List String).length +
            ["    require(ok);"].length + 3 : Nat) : Int))).map
        (fun fd => (fd.lines, fd.severity, fd.check))
      = [([((([] : List String).length + ([] : List String).length + 2 : Nat) : Int),
           ((([] : List String).length + ([] : List String).length +
             ["    require(ok);"].length + 3 : Nat) : Int)],
          "High", "custom-reentrancy-ordering")] :=
  c1_amended_reentrancy_emission "w.sol" [] [] ["    require(ok);"] ["\x7d"]
    "function f() public \x7b" "    (bool ok,) = a.call\x7bvalue: v\x7d(\"\");"
    "    balances[a] -= 1;"
    (by decide) (by decide) (by decide) (by decide) (by decide) (by decide)

/-- Witness for c10_guard_not_comment_filtered: the guard line is the pure
comment line with the mutex token; the mutation on line 4 after the
external call on line 2 yields no finding. -/
theorem c10_guard_not_comment_filtered_witness :
    (checkReentrancyInFile "g.sol"
        ([] ++ "function withdraw() public \x7b" ::
          ["    (bool ok,) = a.call\x7bvalue: v\x7d(\"\");"] ++ "    // mutex" :: [] ++
          "    balances[a] = 0;" :: ["\x7d"])).filter
        (fun fd => fd.lines.getD 1 0 ==
          ((([] : List String).length +
            ["    (bool ok,) = a.call\x7bvalue: v\x7d(\"\");"].length +
            ([] : List String).length + 3 : Nat) : Int)) = [] :=
  c10_guard_not_comment_filtered "g.sol" [] ["    (bool ok,) = a.call\x7bvalue: v\x7d(\"\");"] [] ["\x7d"]
    "function withdraw() public \x7b" "    // mutex" "    balances[a] = 0;"
    (by decide) (by decide) (by decide) (by decide)

/-- C7 (counterexample): a file with no version-pragma line keeps the
initial version 0.0, so its bare arithmetic line is flagged High by the
below-threshold rule, while the claim says a missing pragma defaults to
the safe version and yields zero such findings. -/
theorem c7_counterexample_missing_pragma :
    (checkIntegerOverflowInFile "nopragma.sol" ["uint256 c = a + b;"]).map
      (fun fd => (fd.check, fd.severity, fd.lines))
      = [("custom-integer-overflow", "High", [1])] := by
  decide

/-- Witness for c7_amended_safe_pragma_no_high_findings: the pragma line
is present but unparsable, so the version defaults to 0.8 and the
arithmetic line produces no below-threshold finding. -/
theorem c7_amended_safe_pragma_no_high_findings_witness :
    (checkIntegerOverflowInFile "unparsable.sol"
        ("pragma solidity woof;" :: ["    uint256 c = a + b;"])).all
      (fun fd => fd.check != "custom-integer-overflow") = true :=
  c7_amended_safe_pragma_no_high_findings "unparsable.sol" "pragma solidity woof;" ["    uint256 c = a + b;"]
    (by decide) (by decide) (by decide)

/-- Witness for c8_unchecked_block_single_low_finding at the 0.8.0 test
contract: the block opens on line 6, the subtraction is on line 7. -/
theorem c8_unchecked_block_single_low_finding_witness :
    (checkIntegerOverflowInFile "new.sol"
        ([""] ++ "pragma solidity ^0.8.0;" ::
          (["", "contract New \x7b", "    function sub(uint256 a, uint256 b) public \x7b"] ++
            "        unchecked \x7b" :: "            uint256 c = a - b;" :: "        \x7d" ::
            ["    \x7d", "\x7d"]))).map
      (fun fd => (fd.check, fd.severity, fd.lines))
    = [("custom-unchecked-arithmetic", "Low",
        [(([""].length + ["", "contract New \x7b",
            "    function sub(uint256 a, uint256 b) public \x7b"].length + 2 : Nat) : Int),
         (([""].length + ["", "contract New \x7b",
            "    function sub(uint256 a, uint256 b) public \x7b"].length + 3 : Nat) : Int)])] :=
  c8_unchecked_block_single_low_finding "new.sol" [""]
    ["", "contract New \x7b", "    function sub(uint256 a, uint256 b) public \x7b"]
    ["    \x7d", "\x7d"] "pragma solidity ^0.8.0;" "        unchecked \x7b"
    "            uint256 c = a - b;" "        \x7d"
    (by decide) (by decide) (by decide) (by decide) (by decide) (by decide)
    (by decide) (by decide) (by decide)

/-- C6 (code bug): the access-control detector never flags camelCase
continuations of sensitive keywords, because containsFunctionNamed
lowercases the whole line before testing whether the character after the
keyword is an uppercase ASCII letter, so that test can never succeed.  A
public mintTokens declaration with no access modifier yields NO finding,
although the claim — and the comment in the source, which says the code
matches "function mintTokens(" — require one Critical finding; the bare
mint declaration is flagged as expected. -/
theorem c6_code_bug_mintTokens_not_flagged :
    checkAccessControlInFile "a.sol" ["function mintTokens(address to) public \x7b"] = [] ∧
    (checkAccessControlInFile "a.sol" ["function mint(address to) public \x7b"]).map
      (fun f => (f.severity, f.check, f.title))
      = [("Critical", "custom-missing-access-control", "Missing Access Control on mint()")] := by
  constructor
  · decide
  · decide

def bogusSeverityFinding : Finding := { emptyFinding with severity := "" }

/-- C2 (counterexample): a single finding whose severity is the empty
string — not one of the six enumerated values — yields a Summary with
total = 1 while the six per-severity counts sum to 0, refuting the
claimed equality for such sequences. -/
theorem c2_counterexample_unrecognized_severity :
    (buildSummary [bogusSeverityFinding]).total = 1 ∧
    (buildSummary [bogusSeverityFinding]).critical + (buildSummary [bogusSeverityFinding]).high +
      (buildSummary [bogusSeverityFinding]).medium + (buildSummary [bogusSeverityFinding]).low +
      (buildSummary [bogusSeverityFinding]).informational +
      (buildSummary [bogusSeverityFinding]).optimization = 0 := by
  decide

def collideA : Finding :=
  { emptyFinding with
      id := "A-1"
      source := "custom"
      title := "first finding"
      severity := "High"
      file := "a|b.sol"
      swcRef := "SWC-107" }

def collideB : Finding :=
  { emptyFinding with
      id := "B-2"
      source := "external"
      title := "a completely different finding"
      severity := "Low"
      file := "b.sol"
      swcRef := "SWC-107|a" }

/-- C4 (counterexample): collideA and collideB have different
(cross-reference id, file, first line) tuples, so the claim requires both
to survive deduplication; but their derived key strings are both equal to
SWC-107|a|b.sol, so the code discards collideB, while the tuple-keyed
deduplication written from the wording of the spec keeps both. -/
theorem c4_counterexample_pipe_key_collision :
    tupleKey collideA ≠ tupleKey collideB ∧
    deduplicate [collideA, collideB] = [collideA] ∧
    deduplicateByTupleKey [collideA, collideB] = [collideA, collideB] := by
  refine ⟨by decide, by decide, by decide⟩
